import Mathlib

/-!
Verification of the LLM tool-use orchestration engine of the posterpusher
repository (src/agent.py, src/config.py, and the /agent command handler in
src/app.py), against the claims of its natural-language specification.

Modelling conventions (shallow embedding):
* Python strings are Lean `String`s; Python slicing `s[:n]` operates on code
  points and is modelled by `pyTake` (take on the character list).
* Python dicts appearing as JSON data are modelled by the inductive `Json`
  (association lists for objects); `json.dumps(..., ensure_ascii=False)` is
  modelled by `dumps` with Python's default separators.  `json.loads` is the
  standard-library parser and is kept abstract: every definition that parses
  takes a parameter `jp : String -> Option Json` standing for it (`none`
  models a raised `JSONDecodeError`).
* Anthropic message content blocks are the tagged union `Block`; the
  constructor `Block.other` stands for any block that is not a dict with
  `type` equal to `text`/`tool_use`/`tool_result` (the code never inspects
  those beyond their absent fields, which contribute nothing).
* Python exceptions are modelled with `Except`: a function that can raise
  returns `Except PyExn A`; `try/except` is a `match` on that value.
-/

/-- JSON values, modelling the Python objects handled by `json.loads` /
`json.dumps` in src/agent.py.  Numbers are modelled as integers (the Poster
API payloads the code handles are integer cents; no claim depends on float
formatting). -/
inductive Json where
  | null : Json
  | bool : Bool → Json
  | num : Int → Json
  | str : String → Json
  | arr : List Json → Json
  | obj : List (String × Json) → Json

mutual

/-- Decidable equality for `Json` (written out by hand: the automatic
derivation does not support nested inductives). -/
def jsonDecEq : (a b : Json) → Decidable (a = b)
  | Json.null, Json.null => isTrue rfl
  | Json.null, Json.bool _ => isFalse (fun h => nomatch h)
  | Json.null, Json.num _ => isFalse (fun h => nomatch h)
  | Json.null, Json.str _ => isFalse (fun h => nomatch h)
  | Json.null, Json.arr _ => isFalse (fun h => nomatch h)
  | Json.null, Json.obj _ => isFalse (fun h => nomatch h)
  | Json.bool _, Json.null => isFalse (fun h => nomatch h)
  | Json.bool a, Json.bool b =>
    match decEq a b with
    | isTrue h => isTrue (by rw [h])
    | isFalse h => isFalse (fun he => h (by cases he; rfl))
  | Json.bool _, Json.num _ => isFalse (fun h => nomatch h)
  | Json.bool _, Json.str _ => isFalse (fun h => nomatch h)
  | Json.bool _, Json.arr _ => isFalse (fun h => nomatch h)
  | Json.bool _, Json.obj _ => isFalse (fun h => nomatch h)
  | Json.num _, Json.null => isFalse (fun h => nomatch h)
  | Json.num _, Json.bool _ => isFalse (fun h => nomatch h)
  | Json.num a, Json.num b =>
    match decEq a b with
    | isTrue h => isTrue (by rw [h])
    | isFalse h => isFalse (fun he => h (by cases he; rfl))
  | Json.num _, Json.str _ => isFalse (fun h => nomatch h)
  | Json.num _, Json.arr _ => isFalse (fun h => nomatch h)
  | Json.num _, Json.obj _ => isFalse (fun h => nomatch h)
  | Json.str _, Json.null => isFalse (fun h => nomatch h)
  | Json.str _, Json.bool _ => isFalse (fun h => nomatch h)
  | Json.str _, Json.num _ => isFalse (fun h => nomatch h)
  | Json.str a, Json.str b =>
    match decEq a b with
    | isTrue h => isTrue (by rw [h])
    | isFalse h => isFalse (fun he => h (by cases he; rfl))
  | Json.str _, Json.arr _ => isFalse (fun h => nomatch h)
  | Json.str _, Json.obj _ => isFalse (fun h => nomatch h)
  | Json.arr _, Json.null => isFalse (fun h => nomatch h)
  | Json.arr _, Json.bool _ => isFalse (fun h => nomatch h)
  | Json.arr _, Json.num _ => isFalse (fun h => nomatch h)
  | Json.arr _, Json.str _ => isFalse (fun h => nomatch h)
  | Json.arr a, Json.arr b =>
    match jsonDecEqList a b with
    | isTrue h => isTrue (by rw [h])
    | isFalse h => isFalse (fun he => h (by cases he; rfl))
  | Json.arr _, Json.obj _ => isFalse (fun h => nomatch h)
  | Json.obj _, Json.null => isFalse (fun h => nomatch h)
  | Json.obj _, Json.bool _ => isFalse (fun h => nomatch h)
  | Json.obj _, Json.num _ => isFalse (fun h => nomatch h)
  | Json.obj _, Json.str _ => isFalse (fun h => nomatch h)
  | Json.obj _, Json.arr _ => isFalse (fun h => nomatch h)
  | Json.obj a, Json.obj b =>
    match jsonDecEqPairs a b with
    | isTrue h => isTrue (by rw [h])
    | isFalse h => isFalse (fun he => h (by cases he; rfl))

/-- Decidable equality for lists of `Json`. -/
def jsonDecEqList : (a b : List Json) → Decidable (a = b)
  | [], [] => isTrue rfl
  | [], _ :: _ => isFalse (fun h => nomatch h)
  | _ :: _, [] => isFalse (fun h => nomatch h)
  | x :: xs, y :: ys =>
    match jsonDecEq x y with
    | isTrue h1 =>
      match jsonDecEqList xs ys with
      | isTrue h2 => isTrue (by rw [h1, h2])
      | isFalse h2 => isFalse (fun he => h2 (by cases he; rfl))
    | isFalse h1 => isFalse (fun he => h1 (by cases he; rfl))

/-- Decidable equality for JSON object bodies. -/
def jsonDecEqPairs : (a b : List (String × Json)) → Decidable (a = b)
  | [], [] => isTrue rfl
  | [], _ :: _ => isFalse (fun h => nomatch h)
  | _ :: _, [] => isFalse (fun h => nomatch h)
  | (k1, v1) :: xs, (k2, v2) :: ys =>
    match decEq k1 k2 with
    | isTrue hk =>
      match jsonDecEq v1 v2 with
      | isTrue h1 =>
        match jsonDecEqPairs xs ys with
        | isTrue h2 => isTrue (by rw [hk, h1, h2])
        | isFalse h2 => isFalse (fun he => h2 (by cases he; rfl))
      | isFalse h1 => isFalse (fun he => h1 (by cases he; rfl))
    | isFalse hk => isFalse (fun he => hk (by cases he; rfl))

end

instance : DecidableEq Json := jsonDecEq

/-- Escape of one character inside a JSON string literal, as `json.dumps`
with `ensure_ascii=False` produces it for the characters the claims exercise
(quote, backslash and common control characters; other characters are
emitted verbatim). -/
def escapeChar (c : Char) : String :=
  if c = '"' then "\\\""
  else if c = '\\' then "\\\\"
  else if c = '\n' then "\\n"
  else if c = '\t' then "\\t"
  else if c = '\r' then "\\r"
  else String.singleton c

/-- JSON string-literal body escaping. -/
def escapeString (s : String) : String :=
  s.data.foldl (fun acc c => acc ++ escapeChar c) ""

mutual

/-- `json.dumps(value, ensure_ascii=False)` with Python's default
separators `", "` and `": "`. -/
def dumps : Json → String
  | Json.null => "null"
  | Json.bool true => "true"
  | Json.bool false => "false"
  | Json.num n => toString n
  | Json.str s => "\"" ++ escapeString s ++ "\""
  | Json.arr l => "[" ++ dumpsList l ++ "]"
  | Json.obj kvs => "\x7b" ++ dumpsPairs kvs ++ "\x7d"

/-- Comma-separated serialization of a JSON array body. -/
def dumpsList : List Json → String
  | [] => ""
  | [j] => dumps j
  | j :: rest => dumps j ++ ", " ++ dumpsList rest

/-- Comma-separated serialization of a JSON object body. -/
def dumpsPairs : List (String × Json) → String
  | [] => ""
  | [(k, v)] => "\"" ++ escapeString k ++ "\": " ++ dumps v
  | (k, v) :: rest => "\"" ++ escapeString k ++ "\": " ++ dumps v ++ ", " ++ dumpsPairs rest

end

/-- Python slicing `s[:n]` (by code points). -/
def pyTake (s : String) (n : Nat) : String := ⟨s.data.take n⟩

/-- `json.dumps({"error": msg})` — the error payloads produced by
`execute_tool` in src/agent.py. -/
def errJson (msg : String) : String :=
  dumps (Json.obj [("error", Json.str msg)])

/-- The `input` dict of a `tool_use` block / the `tool_input` argument of
`execute_tool`, modelled by the projections the code reads
(`tool_input.get(...)`) together with its serialized form and Python
truthiness, which `_estimate_chars` consumes. -/
structure ToolInput where
  method : Option String := none
  params : List (String × Json) := []
  fields : Option (List String) := none
  chart_type : Option String := none
  labels : List String := []
  data : Option Json := none
  series : Option Json := none
  title : Option String := none
  x_label : Option String := none
  y_label : Option String := none
  /-- `json.dumps` of the whole input dict (used only by `_estimate_chars`). -/
  raw : String := "\x7b\x7d"
  /-- Python truthiness of the input dict (nonempty). -/
  truthy : Bool := false
deriving DecidableEq

/-- A content block of a message, as src/agent.py distinguishes them by
their `type` field.  `other` stands for a non-dict block or a dict with any
other `type`. -/
inductive Block where
  | text : String → Block
  | toolUse : String → String → ToolInput → Block
  | toolResult : String → String → Block
  | other : Block
deriving DecidableEq

/-- Message content: either a plain string or a list of content blocks. -/
inductive Content where
  | str : String → Content
  | blocks : List Block → Content
deriving DecidableEq

/-- One conversation message (`{"role": ..., "content": ...}`).  The role is
an arbitrary string, as the code compares it only against `"user"` and
`"assistant"`. -/
structure Message where
  role : String
  content : Content
deriving DecidableEq

/-- `block.get("type") == "tool_result"` for a block. -/
def isToolResultBlock : Block → Bool
  | Block.toolResult _ _ => true
  | _ => false

/-- `block.get("type") == "tool_use"` for a block. -/
def isToolUseBlock : Block → Bool
  | Block.toolUse _ _ _ => true
  | _ => false

/-- The `should_remove` test of `_clean_orphaned_messages` (src/agent.py):
a user message whose list content contains a `tool_result` block, or an
assistant message whose list content contains a `tool_use` block. -/
def isOrphaned (m : Message) : Bool :=
  if m.role == "user" then
    match m.content with
    | Content.blocks bs => bs.any isToolResultBlock
    | _ => false
  else if m.role == "assistant" then
    match m.content with
    | Content.blocks bs => bs.any isToolUseBlock
    | _ => false
  else false

/-- `_clean_orphaned_messages` (src/agent.py): repeatedly drop the first
message while it is orphaned. -/
def clean_orphaned_messages : List Message → List Message
  | [] => []
  | m :: rest =>
    if isOrphaned m then clean_orphaned_messages rest else m :: rest

/-- `MAX_HISTORY_RESULT_CHARS` (src/agent.py). -/
def MAX_HISTORY_RESULT_CHARS : Nat := 2000

/-- `_compress_tool_result` (src/agent.py), with `jp` standing for
`json.loads` (`none` = parse failure). -/
def compress_tool_result (jp : String → Option Json) (result : String) : String :=
  if result.length ≤ MAX_HISTORY_RESULT_CHARS then result
  else
    match jp result with
    | none => pyTake result MAX_HISTORY_RESULT_CHARS ++ "... (compressed for history)"
    | some (Json.arr data) =>
      let sample := data.take 3
      let summary := dumps (Json.arr sample)
      let summary :=
        if summary.length > MAX_HISTORY_RESULT_CHARS then
          pyTake summary MAX_HISTORY_RESULT_CHARS
        else summary
      summary ++ "\n(" ++ toString data.length ++ " records total, showing first 3)"
    | some (Json.obj kvs) =>
      let summary := dumps (Json.obj kvs)
      if summary.length > MAX_HISTORY_RESULT_CHARS then
        pyTake summary MAX_HISTORY_RESULT_CHARS ++ "..."
      else summary
    | some _ => pyTake result MAX_HISTORY_RESULT_CHARS ++ "... (compressed for history)"

/-- The per-block step of `_compress_history_results`: `tool_result` blocks
get their `content` compressed, all other blocks pass through. -/
def compressBlock (jp : String → Option Json) : Block → Block
  | Block.toolResult id c => Block.toolResult id (compress_tool_result jp c)
  | b => b

/-- The per-message step of `_compress_history_results`. -/
def compressMsg (jp : String → Option Json) (m : Message) : Message :=
  match m.content with
  | Content.blocks bs => ⟨m.role, Content.blocks (bs.map (compressBlock jp))⟩
  | _ => m

/-- `_compress_history_results` (src/agent.py). -/
def compress_history_results (jp : String → Option Json) (ms : List Message) : List Message :=
  ms.map (compressMsg jp)

/-- Character estimate of one block in `_estimate_chars`:
`len(str(block.get("content",""))) + len(str(block.get("text","")))`, plus
`len(json.dumps(block.get("input",{})))` when the block's `input` is truthy. -/
def blockEstimate : Block → Nat
  | Block.text t => t.length
  | Block.toolUse _ _ input => if input.truthy then input.raw.length else 0
  | Block.toolResult _ c => c.length
  | Block.other => 0

/-- Character estimate of one message's content in `_estimate_chars`. -/
def contentEstimate : Content → Nat
  | Content.str s => s.length
  | Content.blocks bs => (bs.map blockEstimate).sum

/-- `_estimate_chars` (src/agent.py). -/
def estimate_chars (ms : List Message) : Nat :=
  (ms.map (fun m => contentEstimate m.content)).sum

/-- Python `l[-n:]` on lists (note `l[-0:]` is the whole list). -/
def pyTakeLast (l : List Message) (n : Nat) : List Message :=
  if n = 0 then l else l.drop (l.length - n)

theorem length_clean_le (l : List Message) :
    (clean_orphaned_messages l).length ≤ l.length := by
  induction l with
  | nil => simp [clean_orphaned_messages]
  | cons m rest ih =>
    simp only [clean_orphaned_messages]
    split
    · exact Nat.le_succ_of_le ih
    · simp

/-- The body of the character-budget loop of `_trim_history`, with explicit
fuel so the recursion is structural (and hence evaluable): each iteration
drops at least one message, so `l.length` iterations always suffice —
`trimLoop_fix` below shows the fuelled form satisfies the loop's fixpoint
equation. -/
def trimLoopGo (maxChars : Nat) : Nat → List Message → List Message
  | 0, l => l
  | fuel + 1, l =>
    if 2 < l.length ∧ maxChars < estimate_chars l then
      trimLoopGo maxChars fuel (clean_orphaned_messages (l.drop 1))
    else l

/-- The character-budget loop of `_trim_history`: while more than 2 messages
remain and the estimate exceeds the budget, drop the oldest message and
re-clean. -/
def trimLoop (maxChars : Nat) (l : List Message) : List Message :=
  trimLoopGo maxChars l.length l

theorem trimLoopGo_congr (maxChars : Nat) :
    ∀ f1 f2 l, l.length ≤ f1 → l.length ≤ f2 →
      trimLoopGo maxChars f1 l = trimLoopGo maxChars f2 l := by
  intro f1
  induction f1 with
  | zero =>
    intro f2 l h1 _
    have hl : l = [] := List.length_eq_zero.mp (Nat.le_zero.mp h1)
    subst hl
    cases f2 with
    | zero => rfl
    | succ f2 => simp [trimLoopGo]
  | succ f1 ih =>
    intro f2 l h1 h2
    cases f2 with
    | zero =>
      have hl : l = [] := List.length_eq_zero.mp (Nat.le_zero.mp h2)
      subst hl
      simp [trimLoopGo]
    | succ f2 =>
      simp only [trimLoopGo]
      split
      · rename_i hcond
        apply ih
        · have ha : (clean_orphaned_messages (l.drop 1)).length ≤ (l.drop 1).length :=
            length_clean_le _
          have hb : (l.drop 1).length = l.length - 1 := by simp
          omega
        · have ha : (clean_orphaned_messages (l.drop 1)).length ≤ (l.drop 1).length :=
            length_clean_le _
          have hb : (l.drop 1).length = l.length - 1 := by simp
          omega
      · rfl

/-- The fuelled loop satisfies the `while` loop's fixpoint equation, so
`trimLoop` is a faithful rendering of the source's loop. -/
theorem trimLoop_fix (maxChars : Nat) (l : List Message) :
    trimLoop maxChars l =
      if 2 < l.length ∧ maxChars < estimate_chars l then
        trimLoop maxChars (clean_orphaned_messages (l.drop 1))
      else l := by
  unfold trimLoop
  by_cases hcond : 2 < l.length ∧ maxChars < estimate_chars l
  · rw [if_pos hcond]
    have hfuel : l.length = (l.length - 1) + 1 := by omega
    rw [hfuel]
    simp only [trimLoopGo]
    rw [if_pos hcond]
    apply trimLoopGo_congr
    · have ha : (clean_orphaned_messages (l.drop 1)).length ≤ (l.drop 1).length :=
        length_clean_le _
      have hb : (l.drop 1).length = l.length - 1 := by simp
      omega
    · exact Nat.le_refl _
  · rw [if_neg hcond]
    cases hl : l.length with
    | zero => rfl
    | succ n =>
      simp only [trimLoopGo]
      rw [if_neg hcond]

/-- `_trim_history` (src/agent.py).  The source's default arguments are
`max_messages = 10`, `max_chars = 30000`. -/
def trim_history (jp : String → Option Json) (messages : List Message)
    (max_messages : Nat := 10) (max_chars : Nat := 30000) : List Message :=
  let compressed := compress_history_results jp messages
  let compressed :=
    if max_messages < compressed.length then
      clean_orphaned_messages (pyTakeLast compressed max_messages)
    else compressed
  trimLoop max_chars compressed

/-- Chart image buffers (`BytesIO` in the source) are opaque handles. -/
abbrev Artifact := Nat

/-- Python exceptions, split as `execute_tool`'s two `except` clauses split
them: `requests.RequestException` versus any other `Exception`.  The string
is `str(e)`. -/
inductive PyExn where
  | request : String → PyExn
  | other : String → PyExn
deriving DecidableEq

/-- Return value of `execute_tool`: plain text, or `(text, chart buffer)`. -/
inductive ToolRet where
  | text : String → ToolRet
  | withArtifact : String → Artifact → ToolRet
deriving DecidableEq

/-- The keyword arguments `execute_tool` passes to `generate_generic_chart`. -/
structure ChartArgs where
  chart_type : String
  labels : List String
  data : Option Json
  series : Option Json
  title : Option String
  x_label : Option String
  y_label : Option String
deriving DecidableEq

/-- External collaborators of `execute_tool`, kept abstract:
`apiGet url params` stands for `requests.get(...)` followed by
`raise_for_status()` and `.json()` (an `Except.error` models any raised
exception on that path); `chartGen` stands for `generate_generic_chart`
(src/charts.py, matplotlib-backed: `Except.ok none` models a falsy return,
`Except.error` a raised exception); `adjustTs` stands for the
`datetime.strptime`-based core of `_adjust_timestamp`, which is total (it
catches its own parse failures and returns the input unchanged). -/
structure ToolOracles where
  apiGet : String → List (String × Json) → Except PyExn Json
  chartGen : ChartArgs → Except PyExn (Option Artifact)
  adjustTs : String → String

/-- `POSTER_API_URL` (src/agent.py). -/
def POSTER_API_URL : String := "https://joinposter.com/api"

/-- `ALLOWED_TOOLS` (src/agent.py): the fixed allow-list of dispatchable
tool names. -/
def ALLOWED_TOOLS : List String := ["poster_api", "plot_graph"]

/-- `TIMESTAMP_FIELDS` (src/agent.py). -/
def TIMESTAMP_FIELDS : List String := ["date_close_date", "date", "date_start", "date_end"]

mutual

/-- `_adjust_timestamps` (src/agent.py), with `adj` standing for
`_adjust_timestamp` on one string. -/
def adjust_timestamps (adj : String → String) : Json → Json
  | Json.arr l => Json.arr (adjustTimestampsList adj l)
  | Json.obj kvs => Json.obj (adjustTimestampsPairs adj kvs)
  | j => j

/-- `_adjust_timestamps` mapped over a JSON array. -/
def adjustTimestampsList (adj : String → String) : List Json → List Json
  | [] => []
  | j :: rest => adjust_timestamps adj j :: adjustTimestampsList adj rest

/-- The dict comprehension inside `_adjust_timestamps`: timestamp fields
holding a string get adjusted, dict/list values recurse, others pass. -/
def adjustTimestampsPairs (adj : String → String) : List (String × Json) → List (String × Json)
  | [] => []
  | (k, Json.str s) :: rest =>
    (k, Json.str (if TIMESTAMP_FIELDS.contains k then adj s else s)) ::
      adjustTimestampsPairs adj rest
  | (k, Json.obj o) :: rest =>
    (k, Json.obj (adjustTimestampsPairs adj o)) :: adjustTimestampsPairs adj rest
  | (k, Json.arr a) :: rest =>
    (k, Json.arr (adjustTimestampsList adj a)) :: adjustTimestampsPairs adj rest
  | (k, v) :: rest => (k, v) :: adjustTimestampsPairs adj rest

end

mutual

/-- `_filter_fields` (src/agent.py) with a non-`None` field list: keys are
filtered at every dict level, recursively. -/
def filterFieldsJson (fs : List String) : Json → Json
  | Json.arr l => Json.arr (filterFieldsList fs l)
  | Json.obj kvs => Json.obj (filterFieldsPairs fs kvs)
  | j => j

/-- `_filter_fields` mapped over a JSON array. -/
def filterFieldsList (fs : List String) : List Json → List Json
  | [] => []
  | j :: rest => filterFieldsJson fs j :: filterFieldsList fs rest

/-- `_filter_fields` on a dict body: keep only the requested keys and
recurse into their values. -/
def filterFieldsPairs (fs : List String) : List (String × Json) → List (String × Json)
  | [] => []
  | (k, v) :: rest =>
    if fs.contains k then (k, filterFieldsJson fs v) :: filterFieldsPairs fs rest
    else filterFieldsPairs fs rest

end

/-- `MAX_RESULT_CHARS` (local constant of `execute_tool` in src/agent.py). -/
def MAX_RESULT_CHARS : Nat := 15000

/-- The record-boundary truncation loop of `execute_tool`: accumulate items
while the running serialized length stays within `MAX_RESULT_CHARS`
(`total_len` starts at 2 for the brackets, each item costs its serialized
length plus 2). -/
def takeRecords : List Json → Nat → List Json
  | [], _ => []
  | item :: rest, totalLen =>
    let l := (dumps item).length
    if MAX_RESULT_CHARS < totalLen + l + 2 then []
    else item :: takeRecords rest (totalLen + l + 2)

/-- The response-size limiting at the end of `execute_tool`: long lists are
truncated at record boundaries with a `(showing X of Y records, ...)` note;
anything else long is hard-truncated with `... (truncated)`. -/
def limitResult (result : Json) : String :=
  match result with
  | Json.arr items =>
    if MAX_RESULT_CHARS < (dumps (Json.arr items)).length then
      let truncated := takeRecords items 2
      dumps (Json.arr truncated) ++ "\n(showing " ++ toString truncated.length ++
        " of " ++ toString items.length ++ " records, use \x27fields\x27 param to reduce size)"
    else
      let s := dumps (Json.arr items)
      if MAX_RESULT_CHARS < s.length then pyTake s MAX_RESULT_CHARS ++ "... (truncated)" else s
  | _ =>
    let s := dumps result
    if MAX_RESULT_CHARS < s.length then pyTake s MAX_RESULT_CHARS ++ "... (truncated)" else s

/-- `data.get("response", data)`: the first binding of key `"response"` when
`data` is a dict, `data` itself when the key is absent; a non-dict raises
`AttributeError` (modelled abstractly), which the caller's blanket `except`
turns into an error payload. -/
def getResponseField : Json → Except PyExn Json
  | Json.obj kvs =>
    Except.ok (match kvs.find? (fun kv => kv.1 == "response") with
               | some kv => kv.2
               | none => Json.obj kvs)
  | _ => Except.error (PyExn.other "AttributeError")

/-- The `try` body of `execute_tool` (src/agent.py): chart generation for
`plot_graph`, otherwise the Poster API GET followed by timestamp
adjustment, optional field filtering and size limiting.  `Except.error`
models an exception escaping the body. -/
def execute_tool_body (oc : ToolOracles) (tool_name : String) (tool_input : ToolInput)
    (poster_token : String) : Except PyExn ToolRet :=
  if tool_name == "plot_graph" then
    match oc.chartGen ⟨tool_input.chart_type.getD "bar", tool_input.labels,
                       tool_input.data, tool_input.series, tool_input.title,
                       tool_input.x_label, tool_input.y_label⟩ with
    | Except.error e => Except.error e
    | Except.ok (some chart_buf) =>
      Except.ok (ToolRet.withArtifact "Chart generated successfully." chart_buf)
    | Except.ok none =>
      Except.ok (ToolRet.text (errJson "Failed to generate chart. Charts may not be available."))
  else
    let method := tool_input.method.getD ""
    if method == "" then
      Except.ok (ToolRet.text (errJson "Missing required \x27method\x27 parameter"))
    else
      let params := tool_input.params ++ [("token", Json.str poster_token)]
      match oc.apiGet (POSTER_API_URL ++ "/" ++ method) params with
      | Except.error e => Except.error e
      | Except.ok data =>
        match getResponseField data with
        | Except.error e => Except.error e
        | Except.ok result =>
          let result := adjust_timestamps oc.adjustTs result
          let result :=
            match tool_input.fields with
            | some fs => if fs.isEmpty then result else filterFieldsJson fs result
            | none => result
          Except.ok (ToolRet.text (limitResult result))

/-- `execute_tool` (src/agent.py): the allow-list check, then the `try`
body with both `except` clauses converting any exception into an error
payload.  The return type is exception-free: the dispatcher never raises
across its boundary. -/
def execute_tool (oc : ToolOracles) (tool_name : String) (tool_input : ToolInput)
    (poster_token : String) : ToolRet :=
  if !(ALLOWED_TOOLS.contains tool_name) then
    ToolRet.text (errJson ("Tool not allowed: " ++ tool_name))
  else
    match execute_tool_body oc tool_name tool_input poster_token with
    | Except.ok r => r
    | Except.error (PyExn.request msg) => ToolRet.text (errJson ("API request failed: " ++ msg))
    | Except.error (PyExn.other msg) => ToolRet.text (errJson ("Tool execution failed: " ++ msg))

/-- A response of the Model Client (`client.messages.create`). -/
structure ModelResponse where
  stop_reason : String
  content : List Block
deriving DecidableEq

/-- The Model Client, abstract: called with the tools-enabled flag (the
primary loop passes `tools=TOOLS`, the summarization call passes no tools)
and the current messages; `Except.error` models a raised exception.  The
system prompt, model name and token limits are fixed arguments in the
source and are absorbed into the oracle. -/
abbrev ModelOracle := Bool → List Message → Except String ModelResponse

/-- The text extraction `for block in response.content: if hasattr(block,
"text"): final_text += block.text`. -/
def concat_text_blocks (bs : List Block) : String :=
  bs.foldl (fun acc b => match b with | Block.text t => acc ++ t | _ => acc) ""

/-- The tool-dispatch pass of one `tool_use` turn of `run_agent`: every
`tool_use` block, in emitted order, is executed; each outcome becomes a
`tool_result` block, and chart buffers are collected in order. -/
def runToolUses (oc : ToolOracles) (poster_token : String) :
    List Block → List Block × List Artifact
  | [] => ([], [])
  | b :: rest =>
    match b with
    | Block.toolUse id name input =>
      let ret := execute_tool oc name input poster_token
      let (rs, cs) := runToolUses oc poster_token rest
      (match ret with
       | ToolRet.withArtifact t a => (Block.toolResult id t :: rs, a :: cs)
       | ToolRet.text t => (Block.toolResult id t :: rs, cs))
    | _ => runToolUses oc poster_token rest

/-- How the `while` loop of `run_agent` exits: `done` (stop reason other
than `tool_use`, carrying the final text and the messages with the final
assistant turn appended) or `exhausted` (iteration budget consumed). -/
inductive LoopExit where
  | done : String → List Message → List Artifact → LoopExit
  | exhausted : List Message → List Artifact → LoopExit
deriving DecidableEq

/-- The `while iteration < max_iterations` loop of `run_agent`
(src/agent.py), as recursion on the remaining iteration budget.  A model
failure propagates (nothing in the loop catches it). -/
def agent_loop (model : ModelOracle) (oc : ToolOracles) (poster_token : String) :
    Nat → List Message → List Artifact → Except String LoopExit
  | 0, messages, charts => Except.ok (LoopExit.exhausted messages charts)
  | remaining + 1, messages, charts =>
    match model true messages with
    | Except.error e => Except.error e
    | Except.ok response =>
      if response.stop_reason == "tool_use" then
        let (tool_results, new_charts) := runToolUses oc poster_token response.content
        agent_loop model oc poster_token remaining
          (messages ++ [⟨"assistant", Content.blocks response.content⟩,
                        ⟨"user", Content.blocks tool_results⟩])
          (charts ++ new_charts)
      else
        let final_text := concat_text_blocks response.content
        Except.ok (LoopExit.done final_text
          (messages ++ [⟨"assistant", Content.str final_text⟩]) charts)

/-- The synthetic user message appended when the iteration limit is
reached. -/
def exhausted_user_message : Message :=
  ⟨"user", Content.str ("You\x27ve reached the maximum number of tool calls. Please summarize what you\x27ve found so far based on the data you\x27ve already retrieved. If you couldn\x27t complete the request, explain what information is missing.")⟩

/-- The fixed fallback result of the exhaustion path. -/
def MAX_ITERATIONS_FALLBACK : String := "Agent reached maximum iterations without completing."

/-- The code after the loop in `run_agent`: append the synthetic user
message, make exactly one tools-disabled model call; if it raises or yields
empty text, return the fixed fallback instead of propagating. -/
def run_agent_exhausted (jp : String → Option Json) (model : ModelOracle)
    (messages : List Message) (charts : List Artifact) :
    String × List Message × List Artifact :=
  let messages := messages ++ [exhausted_user_message]
  match model false messages with
  | Except.error _ => (MAX_ITERATIONS_FALLBACK, trim_history jp messages, charts)
  | Except.ok response =>
    let summary_text := concat_text_blocks response.content
    if summary_text == "" then (MAX_ITERATIONS_FALLBACK, trim_history jp messages, charts)
    else (summary_text,
          trim_history jp (messages ++ [⟨"assistant", Content.str summary_text⟩]), charts)

/-- `run_agent` (src/agent.py): clean the incoming history, append the user
prompt, run the loop; on `done` return the final text (or the placeholder
when it is empty) with the trimmed history; on exhaustion run the
summarization step.  Primary-loop model failures propagate. -/
def run_agent (jp : String → Option Json) (model : ModelOracle) (oc : ToolOracles)
    (poster_token : String) (prompt : String) (history : List Message)
    (max_iterations : Nat) : Except String (String × List Message × List Artifact) :=
  let messages := clean_orphaned_messages history ++ [⟨"user", Content.str prompt⟩]
  match agent_loop model oc poster_token max_iterations messages [] with
  | Except.error e => Except.error e
  | Except.ok (LoopExit.done final_text msgs charts) =>
    let response_text := if final_text == "" then "No response generated." else final_text
    Except.ok (response_text, trim_history jp msgs, charts)
  | Except.ok (LoopExit.exhausted msgs charts) =>
    Except.ok (run_agent_exhausted jp model msgs charts)

/-- The `/agent` command handler of src/app.py (lines 1275-1309), reduced
to its effect on the conversation-store entry of the invoking user: the
stored history is read, `run_agent` is awaited inside `try`, and only on
success is the store replaced by the updated (trimmed) history; an
exception leaves the store untouched and surfaces an error message. -/
def agent_command (jp : String → Option Json) (model : ModelOracle) (oc : ToolOracles)
    (poster_token : String) (stored : List Message) (prompt : String)
    (max_iterations : Nat) : List Message × Except String String :=
  match run_agent jp model oc poster_token prompt stored max_iterations with
  | Except.ok (response, updated_history, _charts) => (updated_history, Except.ok response)
  | Except.error e => (stored, Except.error e)

/-- The per-user agent limits (src/config.py `AGENT_DEFAULTS` keys
`daily_limit` and `max_iterations`; `history_limit` is not read by the
functions under verification). -/
structure AgentLimits where
  daily_limit : Int
  max_iterations : Int
deriving DecidableEq

/-- One user's entry in `agent_user_limits` (each key optional). -/
structure AgentLimitOverrides where
  daily_limit : Option Int := none
  max_iterations : Option Int := none
deriving DecidableEq

/-- The `daily_limit`/`max_iterations` defaults of `AGENT_DEFAULTS`
(src/config.py). -/
def AGENT_DEFAULTS : AgentLimits := ⟨20, 5⟩

/-- `get_agent_limits` (src/config.py): defaults updated by the user's
override entry, if any. -/
def get_agent_limits (ov : Option AgentLimitOverrides) : AgentLimits :=
  match ov with
  | none => AGENT_DEFAULTS
  | some o => ⟨o.daily_limit.getD AGENT_DEFAULTS.daily_limit,
               o.max_iterations.getD AGENT_DEFAULTS.max_iterations⟩

/-- `set_agent_limit` (src/config.py): accepts any integer value for the
two known keys (returns the success flag and the updated override entry). -/
def set_agent_limit (ov : Option AgentLimitOverrides) (key : String) (value : Int) :
    Bool × Option AgentLimitOverrides :=
  if key == "daily_limit" then
    (true, some ⟨some value, (ov.getD ⟨none, none⟩).max_iterations⟩)
  else if key == "max_iterations" then
    (true, some ⟨(ov.getD ⟨none, none⟩).daily_limit, some value⟩)
  else (false, ov)

/-- One user's entry in `agent_usage` (src/config.py).  ISO date strings
are compared only for equality, so days are modelled as numbers. -/
structure AgentUsage where
  date : Nat
  count : Nat
deriving DecidableEq

/-- The lazy day-rollover shared by `check_agent_rate_limit` and
`record_agent_usage`: a missing entry or a stale date resets the count. -/
def rolloverUsage (today : Nat) (st : Option AgentUsage) : AgentUsage :=
  match st with
  | some u => if u.date == today then u else ⟨today, 0⟩
  | none => ⟨today, 0⟩

/-- `check_agent_rate_limit` (src/config.py).  The store entry it (re)writes
is returned alongside `(allowed, remaining)`. -/
def check_agent_rate_limit (ov : Option AgentLimitOverrides) (today : Nat)
    (st : Option AgentUsage) : Option AgentUsage × Bool × Int :=
  let daily_limit := (get_agent_limits ov).daily_limit
  let usage := rolloverUsage today st
  let remaining := daily_limit - usage.count
  if daily_limit ≤ (usage.count : Int) then (some usage, false, 0)
  else (some usage, true, remaining)

/-- `record_agent_usage` (src/config.py): rollover, then increment. -/
def record_agent_usage (today : Nat) (st : Option AgentUsage) : Option AgentUsage :=
  let usage := rolloverUsage today st
  some ⟨usage.date, usage.count + 1⟩

/-! ## Invariant I1 (spec section 3), formalised over the message model -/

/-- The id of a `tool_result` block, if any. -/
def resultIdOf : Block → Option String
  | Block.toolResult id _ => some id
  | _ => none

/-- The id of a `tool_use` block, if any. -/
def useIdOf : Block → Option String
  | Block.toolUse id _ _ => some id
  | _ => none

/-- Ids of all `tool_result` blocks of a message. -/
def resultIds (m : Message) : List String :=
  match m.content with
  | Content.blocks bs => bs.filterMap resultIdOf
  | _ => []

/-- Ids of all `tool_use` blocks of a message. -/
def useIds (m : Message) : List String :=
  match m.content with
  | Content.blocks bs => bs.filterMap useIdOf
  | _ => []

/-- Invariant I1 for one adjacent pair: every `tool_result` in `cur` has a
matching `tool_use` in `prev`, and `prev` is an assistant message. -/
def pairOk (prev cur : Message) : Bool :=
  (resultIds cur).all (fun i => prev.role == "assistant" && (useIds prev).contains i)

/-- I1 along a chain starting after a given predecessor. -/
def chainOk : Message → List Message → Bool
  | _, [] => true
  | prev, m :: rest => pairOk prev m && chainOk m rest

/-- Invariant I1 in full: the first message has no `tool_result` blocks (it
has no predecessor), and every later message is paired with its
predecessor. -/
def satisfiesI1 : List Message → Bool
  | [] => true
  | m :: rest => (resultIds m).isEmpty && chainOk m rest

/-- I1 restricted to indices at least 1 — the part a front-truncation
cannot break. -/
def tailPaired : List Message → Bool
  | [] => true
  | m :: rest => chainOk m rest

/-! ## Helper lemmas on repair, compression and trimming -/

theorem resultIds_nil_of_not_any (bs : List Block)
    (h : bs.any isToolResultBlock = false) : bs.filterMap resultIdOf = [] := by
  induction bs with
  | nil => rfl
  | cons b rest ih =>
    simp only [List.any_cons, Bool.or_eq_false_iff] at h
    cases b with
    | toolResult id c => exact absurd h.1 (by simp [isToolResultBlock])
    | text t => simpa [List.filterMap_cons, resultIdOf] using ih h.2
    | toolUse id n i => simpa [List.filterMap_cons, resultIdOf] using ih h.2
    | other => simpa [List.filterMap_cons, resultIdOf] using ih h.2

theorem resultIds_nil_of_user_not_orphaned (m : Message) (hrole : m.role = "user")
    (h : isOrphaned m = false) : resultIds m = [] := by
  unfold isOrphaned at h
  rw [hrole] at h
  simp only [beq_self_eq_true, if_true] at h
  unfold resultIds
  cases hc : m.content with
  | str s => rfl
  | blocks bs =>
    rw [hc] at h
    exact resultIds_nil_of_not_any bs h

theorem clean_head_not_orphaned :
    ∀ (ms : List Message) (m : Message) (rest : List Message),
      clean_orphaned_messages ms = m :: rest → isOrphaned m = false := by
  intro ms
  induction ms with
  | nil => intro m rest h; exact absurd h (by simp [clean_orphaned_messages])
  | cons x r ih =>
    intro m rest h
    by_cases hx : isOrphaned x
    · rw [clean_orphaned_messages, if_pos hx] at h
      exact ih m rest h
    · rw [clean_orphaned_messages, if_neg hx] at h
      cases h
      exact Bool.eq_false_iff.mpr hx

theorem satisfiesI1_clean (ms : List Message)
    (hpairs : tailPaired ms = true)
    (huser : ∀ m ∈ ms, resultIds m ≠ [] → m.role = "user") :
    satisfiesI1 (clean_orphaned_messages ms) = true := by
  induction ms with
  | nil => rfl
  | cons m rest ih =>
    by_cases hm : isOrphaned m
    · rw [clean_orphaned_messages, if_pos hm]
      apply ih
      · cases rest with
        | nil => rfl
        | cons m2 r2 =>
          simp only [tailPaired, chainOk, Bool.and_eq_true] at hpairs ⊢
          exact hpairs.2
      · intro x hx hrx
        exact huser x (List.mem_cons_of_mem _ hx) hrx
    · rw [clean_orphaned_messages, if_neg hm]
      simp only [satisfiesI1, Bool.and_eq_true]
      refine ⟨?_, ?_⟩
      · by_cases hrole : m.role = "user"
        · rw [resultIds_nil_of_user_not_orphaned m hrole (Bool.eq_false_iff.mpr hm)]
          rfl
        · by_cases hr : resultIds m = []
          · rw [hr]; rfl
          · exact absurd (huser m (List.mem_cons_self m rest) hr) hrole
      · simpa only [tailPaired] using hpairs

theorem isToolResultBlock_compressBlock (jp : String → Option Json) (b : Block) :
    isToolResultBlock (compressBlock jp b) = isToolResultBlock b := by
  cases b <;> rfl

theorem isToolUseBlock_compressBlock (jp : String → Option Json) (b : Block) :
    isToolUseBlock (compressBlock jp b) = isToolUseBlock b := by
  cases b <;> rfl

theorem isOrphaned_compressMsg (jp : String → Option Json) (m : Message) :
    isOrphaned (compressMsg jp m) = isOrphaned m := by
  cases m with
  | mk role content =>
    cases content with
    | str s => rfl
    | blocks bs =>
      simp only [compressMsg, isOrphaned, List.any_map]
      simp [Function.comp_def, isToolResultBlock_compressBlock, isToolUseBlock_compressBlock]

theorem clean_of_head_not_orphaned (l : List Message)
    (h : ∀ m ∈ l, isOrphaned m = false) : clean_orphaned_messages l = l := by
  cases l with
  | nil => rfl
  | cons m rest =>
    rw [clean_orphaned_messages,
        if_neg (by rw [h m (List.mem_cons_self m rest)]; exact Bool.false_ne_true)]

theorem trimLoopGo_length_ge_two (maxChars : Nat) :
    ∀ (fuel : Nat) (l : List Message), 2 ≤ l.length →
      (∀ m ∈ l, isOrphaned m = false) →
      2 ≤ (trimLoopGo maxChars fuel l).length := by
  intro fuel
  induction fuel with
  | zero => intro l h2 _; exact h2
  | succ fuel ih =>
    intro l h2 hno
    simp only [trimLoopGo]
    split
    · rename_i hcond
      have hsub : ∀ m ∈ l.drop 1, isOrphaned m = false :=
        fun m hm => hno m (List.mem_of_mem_drop hm)
      rw [clean_of_head_not_orphaned _ hsub]
      apply ih
      · have : (l.drop 1).length = l.length - 1 := by simp
        omega
      · exact hsub
    · exact h2

/-! ## Claims C2, C3, C4 -/

/-- A history whose I1 violation sits away from the front: the repair
function never looks past the first message, so it returns it unchanged. -/
def repairC2Input : List Message :=
  [⟨"user", Content.str "hi"⟩,
   ⟨"user", Content.blocks [Block.toolResult "1" "x"]⟩]

/-- C2 (counterexample): `_clean_orphaned_messages` applied to a two-message
history whose second message holds an orphaned `tool_result` returns a
nonempty sequence that does not satisfy invariant I1 in full — the repair
only removes violations at the front. -/
theorem c2_counterexample :
    clean_orphaned_messages repairC2Input ≠ [] ∧
    satisfiesI1 (clean_orphaned_messages repairC2Input) = false := by decide

/-- C2 (amended): `_clean_orphaned_messages` returns a sequence whose first
message is not orphaned (no user-message/`tool_result` or
assistant-message/`tool_use` violation at position 0); and whenever the
input's I1 violations are confined to the front — every adjacent pair from
index 1 on is correctly paired and `tool_result` blocks occur only in user
messages — the output satisfies invariant I1 in full. -/
theorem c2_amended (ms : List Message) :
    (∀ m rest, clean_orphaned_messages ms = m :: rest → isOrphaned m = false) ∧
    (tailPaired ms = true →
      (∀ m ∈ ms, resultIds m ≠ [] → m.role = "user") →
      satisfiesI1 (clean_orphaned_messages ms) = true) := by
  refine ⟨fun m rest h => clean_head_not_orphaned ms m rest h, ?_⟩
  intro hpairs huser
  exact satisfiesI1_clean ms hpairs huser

/-- An orphaned assistant/user pair followed by a plain exchange, used to
instantiate `c2_amended` concretely. -/
def repairC2WitnessInput : List Message :=
  [⟨"assistant", Content.blocks [Block.toolUse "5" "poster_api" ⟨none, [], none, none, [], none, none, none, none, none, "\x7b\x7d", false⟩]⟩,
   ⟨"user", Content.blocks [Block.toolResult "5" "data"]⟩,
   ⟨"user", Content.str "ok"⟩]

/-- Witness for `c2_amended` at a concrete truncated history. -/
theorem c2_witness :
    satisfiesI1 (clean_orphaned_messages repairC2WitnessInput) = true :=
  (c2_amended repairC2WitnessInput).2 (by decide) (by decide)

/-- C3: the protocol-repair function is idempotent — for every message
sequence (arbitrary roles and content blocks),
`_clean_orphaned_messages` applied twice equals it applied once. -/
theorem c3_repair_idempotent (ms : List Message) :
    clean_orphaned_messages (clean_orphaned_messages ms) =
      clean_orphaned_messages ms := by
  induction ms with
  | nil => rfl
  | cons m rest ih =>
    by_cases h : isOrphaned m
    · rw [clean_orphaned_messages, if_pos h]
      exact ih
    · rw [clean_orphaned_messages, if_neg h, clean_orphaned_messages, if_neg h]

/-- A three-message history on which trimming under a tiny character budget
drops everything: after the budget loop drops the first message, the orphan
cleanup removes the remaining two. -/
def trimC4Input : List Message :=
  [⟨"user", Content.str "x"⟩,
   ⟨"user", Content.blocks [Block.toolResult "1" ""]⟩,
   ⟨"assistant", Content.blocks [Block.toolUse "2" "poster_api" ⟨none, [], none, none, [], none, none, none, none, none, "\x7b\x7d", false⟩]⟩]

/-- C4 (counterexample): `_trim_history` on a 3-message input with the
source's default `max_messages = 10` and `max_chars = 0` returns the empty
sequence — fewer than 2 messages survive. -/
theorem c4_counterexample :
    2 ≤ trimC4Input.length ∧
    trim_history (fun _ => none) trimC4Input 10 0 = [] := by decide

/-- C4 (amended): when no message of the input is orphaned (so the orphan
cleanup inside trimming removes nothing — e.g. a history of plain
user/assistant exchanges) and `max_messages ≥ 2`, `_trim_history` returns
at least 2 messages for every input of length at least 2 and every
`max_chars`, however small. -/
theorem c4_amended (jp : String → Option Json) (ms : List Message)
    (max_messages max_chars : Nat)
    (h2 : 2 ≤ ms.length) (hmm : 2 ≤ max_messages)
    (hno : ∀ m ∈ ms, isOrphaned m = false) :
    2 ≤ (trim_history jp ms max_messages max_chars).length := by
  simp only [trim_history]
  have hlen : (compress_history_results jp ms).length = ms.length := by
    unfold compress_history_results; exact List.length_map _ _
  have hnoc : ∀ m ∈ compress_history_results jp ms, isOrphaned m = false := by
    intro m hm
    unfold compress_history_results at hm
    obtain ⟨m0, hm0, rfl⟩ := List.mem_map.mp hm
    rw [isOrphaned_compressMsg]
    exact hno m0 hm0
  set compressed := compress_history_results jp ms with hcomp
  by_cases hcount : max_messages < compressed.length
  · rw [if_pos hcount]
    have hmm0 : max_messages ≠ 0 := by omega
    have htl : pyTakeLast compressed max_messages =
        compressed.drop (compressed.length - max_messages) := by
      unfold pyTakeLast
      rw [if_neg hmm0]
    have hsub : ∀ m ∈ pyTakeLast compressed max_messages, isOrphaned m = false := by
      intro m hm
      rw [htl] at hm
      exact hnoc m (List.mem_of_mem_drop hm)
    rw [clean_of_head_not_orphaned _ hsub]
    have hlen2 : (pyTakeLast compressed max_messages).length = max_messages := by
      rw [htl, List.length_drop]
      omega
    unfold trimLoop
    apply trimLoopGo_length_ge_two
    · omega
    · exact hsub
  · rw [if_neg hcount]
    unfold trimLoop
    apply trimLoopGo_length_ge_two
    · omega
    · exact hnoc

/-- Witness for `c4_amended`: a plain two-message exchange under a zero
character budget keeps both messages. -/
theorem c4_witness :
    2 ≤ (trim_history (fun _ => none)
          [⟨"user", Content.str "a"⟩, ⟨"assistant", Content.str "b"⟩] 10 0).length :=
  c4_amended (fun _ => none) _ 10 0 (by decide) (by decide) (by decide)

/-! ## Claim C5 -/

theorem length_pyTake (s : String) (n : Nat) :
    (pyTake s n).length = min n s.length := by
  rw [show (pyTake s n).length = (s.data.take n).length from rfl, List.length_take]
  rfl

/-- C5: `_compress_tool_result` returns strings within the limit unchanged;
an over-limit string that parses as a JSON list becomes the serialization
of its first 3 elements (hard-truncated to the limit if needed) followed by
the annotation `(<N> records total, showing first 3)`, so its length is at
most the limit plus the annotation overhead `34 + digits(N)`; every other
over-limit string compacts to at most the limit plus a 28-character
marker.  (The annotation overhead is the fixed annotation text plus the
digit count of the record count `N`, which the annotation itself carries.) -/
theorem c5_compaction_bound (jp : String → Option Json) (s : String) :
    (s.length ≤ MAX_HISTORY_RESULT_CHARS → compress_tool_result jp s = s)
    ∧ (MAX_HISTORY_RESULT_CHARS < s.length →
        ∀ l, jp s = some (Json.arr l) →
          compress_tool_result jp s =
            (let summary := dumps (Json.arr (l.take 3))
             (if summary.length > MAX_HISTORY_RESULT_CHARS then
                pyTake summary MAX_HISTORY_RESULT_CHARS
              else summary) ++
              "\n(" ++ toString l.length ++ " records total, showing first 3)")
          ∧ (compress_tool_result jp s).length ≤
              MAX_HISTORY_RESULT_CHARS + 34 + (toString l.length).length)
    ∧ (MAX_HISTORY_RESULT_CHARS < s.length →
        (∀ l, jp s ≠ some (Json.arr l)) →
        (compress_tool_result jp s).length ≤ MAX_HISTORY_RESULT_CHARS + 28) := by
  refine ⟨?_, ?_, ?_⟩
  · intro hle
    unfold compress_tool_result
    rw [if_pos hle]
  · intro hgt l hjp
    have hne : ¬ s.length ≤ MAX_HISTORY_RESULT_CHARS := by omega
    have hshape : compress_tool_result jp s =
        (let summary := dumps (Json.arr (l.take 3))
         (if summary.length > MAX_HISTORY_RESULT_CHARS then
            pyTake summary MAX_HISTORY_RESULT_CHARS
          else summary) ++
          "\n(" ++ toString l.length ++ " records total, showing first 3)") := by
      unfold compress_tool_result
      rw [if_neg hne, hjp]
    refine ⟨hshape, ?_⟩
    rw [hshape]
    have hrec : (" records total, showing first 3)" : String).length = 32 := by decide
    have hnl : ("\n(" : String).length = 2 := by decide
    by_cases hsum : (dumps (Json.arr (l.take 3))).length > MAX_HISTORY_RESULT_CHARS
    · simp only [hsum, if_true, String.length_append, hrec, hnl,
        length_pyTake]
      omega
    · simp only [hsum, if_false, String.length_append, hrec, hnl]
      omega
  · intro hgt hnarr
    have hne : ¬ s.length ≤ MAX_HISTORY_RESULT_CHARS := by omega
    have hmark : ("... (compressed for history)" : String).length = 28 := by decide
    have hdots : ("..." : String).length = 3 := by decide
    unfold compress_tool_result
    rw [if_neg hne]
    cases hjp : jp s with
    | none =>
      rw [String.length_append, length_pyTake, hmark]
      omega
    | some j =>
      cases j with
      | null => rw [String.length_append, length_pyTake, hmark]; omega
      | bool b => rw [String.length_append, length_pyTake, hmark]; omega
      | num n => rw [String.length_append, length_pyTake, hmark]; omega
      | str t => rw [String.length_append, length_pyTake, hmark]; omega
      | arr l => exact absurd hjp (hnarr l)
      | obj kvs =>
        by_cases hsum : (dumps (Json.obj kvs)).length > MAX_HISTORY_RESULT_CHARS
        · simp only [hsum, if_true, String.length_append, length_pyTake, hdots]
          omega
        · simp only [hsum, if_false]
          omega

/-- A parse oracle returning a concrete 4-element list, and a 2001-character
input, instantiating `c5_compaction_bound`. -/
def c5jp : String → Option Json :=
  fun _ => some (Json.arr [Json.num 1, Json.num 2, Json.num 3, Json.num 4])

/-- The over-limit input string for the `c5` witness. -/
def c5input : String := ⟨List.replicate 2001 'a'⟩

/-- Witness for `c5_compaction_bound` at a concrete over-limit JSON list. -/
theorem c5_witness :
    MAX_HISTORY_RESULT_CHARS < c5input.length ∧
    compress_tool_result c5jp c5input = "[1, 2, 3]\n(4 records total, showing first 3)" ∧
    (compress_tool_result c5jp c5input).length ≤
      MAX_HISTORY_RESULT_CHARS + 34 + (toString (4 : Nat)).length := by
  have hlen2001 : c5input.length = 2001 := by
    show (List.replicate 2001 'a').length = 2001
    exact List.length_replicate 2001 'a'
  have hlen : MAX_HISTORY_RESULT_CHARS < c5input.length := by
    rw [hlen2001]
    decide
  have h := (c5_compaction_bound c5jp c5input).2.1 hlen
    [Json.num 1, Json.num 2, Json.num 3, Json.num 4] rfl
  refine ⟨hlen, ?_, by simpa using h.2⟩
  rw [h.1]
  decide

/-! ## Claim C6 -/

/-- The message `execute_tool`'s `except` clauses produce for an escaped
exception. -/
def exnMessage : PyExn → String
  | PyExn.request msg => "API request failed: " ++ msg
  | PyExn.other msg => "Tool execution failed: " ++ msg

/-- C6: the tool dispatcher never raises across its boundary.  A name
outside the allow-list yields the `Tool not allowed: <name>` error payload
without attempting execution (the result does not depend on the tool
backends at all), and any exception escaping the body of an allow-listed
tool is caught and returned as an error payload. -/
theorem c6_dispatcher_never_raises (oc1 oc2 : ToolOracles) (tool_name : String)
    (tool_input : ToolInput) (poster_token : String) :
    (ALLOWED_TOOLS.contains tool_name = false →
       execute_tool oc1 tool_name tool_input poster_token =
         ToolRet.text (errJson ("Tool not allowed: " ++ tool_name)) ∧
       execute_tool oc1 tool_name tool_input poster_token =
         execute_tool oc2 tool_name tool_input poster_token)
    ∧ (ALLOWED_TOOLS.contains tool_name = true →
       ∀ e, execute_tool_body oc1 tool_name tool_input poster_token = Except.error e →
         execute_tool oc1 tool_name tool_input poster_token =
           ToolRet.text (errJson (exnMessage e))) := by
  constructor
  · intro hna
    unfold execute_tool
    rw [hna]
    exact ⟨rfl, rfl⟩
  · intro ha e herr
    unfold execute_tool
    rw [ha, herr]
    cases e <;> rfl

/-- Tool backends that always fail, for the `c6` witness. -/
def c6failing : ToolOracles :=
  ⟨fun _ _ => Except.error (PyExn.request "timeout"),
   fun _ => Except.error (PyExn.other "boom"),
   id⟩

/-- A `poster_api` input with a method set, for the `c6` witness. -/
def c6input : ToolInput :=
  ⟨some "dash.getTransactions", [], none, none, [], none, none, none, none, none, "\x7b\x7d", true⟩

/-- Witness for `c6_dispatcher_never_raises`: a disallowed name yields the
fail-closed payload, and a network failure of an allow-listed tool comes
back as an error payload. -/
theorem c6_witness :
    execute_tool c6failing "delete_everything" c6input "tok" =
      ToolRet.text (errJson "Tool not allowed: delete_everything") ∧
    execute_tool c6failing "poster_api" c6input "tok" =
      ToolRet.text (errJson (exnMessage (PyExn.request "timeout"))) := by
  constructor
  · exact ((c6_dispatcher_never_raises c6failing c6failing "delete_everything"
      c6input "tok").1 (by decide)).1
  · exact (c6_dispatcher_never_raises c6failing c6failing "poster_api"
      c6input "tok").2 (by decide) (PyExn.request "timeout") rfl

/-! ## Claim C7 -/

theorem record_once (D : Nat) (st : Option AgentUsage) :
    ∃ c, record_agent_usage D st = some ⟨D, c⟩ ∧ 1 ≤ c := by
  unfold record_agent_usage rolloverUsage
  cases st with
  | none => exact ⟨1, rfl, Nat.le_refl 1⟩
  | some u =>
    by_cases hu : u.date = D
    · refine ⟨u.count + 1, ?_, by omega⟩
      simp [hu]
    · refine ⟨1, ?_, Nat.le_refl 1⟩
      simp [beq_eq_false_iff_ne.mpr hu]

theorem record_same_day (D c : Nat) :
    record_agent_usage D (some ⟨D, c⟩) = some ⟨D, c + 1⟩ := by
  simp [record_agent_usage, rolloverUsage]

theorem record_iterate (D : Nat) :
    ∀ (n : Nat) (st : Option AgentUsage), 1 ≤ n →
      ∃ c, (record_agent_usage D)^[n] st = some ⟨D, c⟩ ∧ n ≤ c := by
  intro n
  induction n with
  | zero => intro st h; omega
  | succ n ih =>
    intro st _
    cases Nat.eq_zero_or_pos n with
    | inl h0 =>
      subst h0
      rw [Function.iterate_succ_apply', Function.iterate_zero_apply]
      exact record_once D st
    | inr hpos =>
      obtain ⟨c, heq, hc⟩ := ih st hpos
      refine ⟨c + 1, ?_, by omega⟩
      rw [Function.iterate_succ_apply', heq, record_same_day]

/-- C7 (counterexample): a user whose effective daily limit is 0 (an
admin-settable override) breaks the day-after half of the rollover claim —
`check` on day D+1 returns `(false, 0)`, not `(true, daily_limit)`. -/
theorem c7_counterexample :
    (get_agent_limits (some ⟨some 0, none⟩)).daily_limit = 0 ∧
    ¬ ((check_agent_rate_limit (some ⟨some 0, none⟩) 1 none).2 =
        (true, (get_agent_limits (some ⟨some 0, none⟩)).daily_limit)) := by
  decide

/-- C7 (amended): for every user whose effective daily limit is `d ≥ 1`,
after `record` has been called `d` times on day `D` (from any starting
state), `check` on day `D` returns `(false, 0)`, and `check` on day `D+1`
(stored date no longer equal to today) lazily resets the count and returns
`(true, d)`. -/
theorem c7_amended (ov : Option AgentLimitOverrides) (st0 : Option AgentUsage)
    (D d : Nat) (hd : (get_agent_limits ov).daily_limit = (d : Int)) (hd1 : 1 ≤ d) :
    (check_agent_rate_limit ov D ((record_agent_usage D)^[d] st0)).2 = (false, 0) ∧
    (check_agent_rate_limit ov (D + 1) ((record_agent_usage D)^[d] st0)).2 =
      (true, (d : Int)) := by
  obtain ⟨c, heq, hc⟩ := record_iterate D d st0 hd1
  rw [heq]
  have hroll1 : rolloverUsage D (some ⟨D, c⟩) = ⟨D, c⟩ := by
    simp [rolloverUsage]
  have hroll2 : rolloverUsage (D + 1) (some ⟨D, c⟩) = ⟨D + 1, 0⟩ := by
    simp [rolloverUsage]
  constructor
  · unfold check_agent_rate_limit
    rw [hroll1, hd]
    dsimp only
    rw [if_pos (by exact_mod_cast hc)]
  · unfold check_agent_rate_limit
    rw [hroll2, hd]
    dsimp only
    rw [if_neg (by exact_mod_cast (by omega : ¬ (d ≤ 0)))]
    simp

/-- Witness for `c7_amended`: limit 2, two recorded calls on day 5. -/
theorem c7_witness :
    (check_agent_rate_limit (some ⟨some 2, none⟩) 5
      ((record_agent_usage 5)^[2] none)).2 = (false, 0) ∧
    (check_agent_rate_limit (some ⟨some 2, none⟩) 6
      ((record_agent_usage 5)^[2] none)).2 = (true, (2 : Int)) :=
  c7_amended (some ⟨some 2, none⟩) none 5 2 (by decide) (by decide)

/-! ## Claims C1, C8, C9, C10 -/

theorem agent_loop_always_toolUse (model : ModelOracle) (oc : ToolOracles)
    (poster_token : String)
    (halways : ∀ msgs, ∃ r, model true msgs = Except.ok r ∧ r.stop_reason = "tool_use") :
    ∀ (n : Nat) (msgs : List Message) (charts : List Artifact),
      ∃ ms cs, agent_loop model oc poster_token n msgs charts =
          Except.ok (LoopExit.exhausted ms cs) ∧
        ms.length = msgs.length + 2 * n := by
  intro n
  induction n with
  | zero => intro msgs charts; exact ⟨msgs, charts, rfl, by omega⟩
  | succ n ih =>
    intro msgs charts
    obtain ⟨r, hr, hstop⟩ := halways msgs
    rcases hrt : runToolUses oc poster_token r.content with ⟨tool_results, new_charts⟩
    obtain ⟨ms, cs, heq, hlen⟩ :=
      ih (msgs ++ [⟨"assistant", Content.blocks r.content⟩,
                   ⟨"user", Content.blocks tool_results⟩]) (charts ++ new_charts)
    refine ⟨ms, cs, ?_, ?_⟩
    · simp only [agent_loop]
      rw [hr]
      simp only [beq_iff_eq, hstop, if_true, hrt]
      exact heq
    · rw [hlen]
      simp only [List.length_append, List.length_cons, List.length_nil]
      omega

theorem agent_loop_done_shape (model : ModelOracle) (oc : ToolOracles)
    (poster_token : String) :
    ∀ (n : Nat) (msgs : List Message) (charts : List Artifact) t ms cs,
      agent_loop model oc poster_token n msgs charts =
        Except.ok (LoopExit.done t ms cs) →
      ∃ pre, ms = pre ++ [⟨"assistant", Content.str t⟩] := by
  intro n
  induction n with
  | zero =>
    intro msgs charts t ms cs h
    simp [agent_loop] at h
  | succ n ih =>
    intro msgs charts t ms cs h
    simp only [agent_loop] at h
    rcases hr : model true msgs with e | r
    · rw [hr] at h
      exact Except.noConfusion h
    · rw [hr] at h
      dsimp only at h
      by_cases hstop : r.stop_reason == "tool_use"
      · rw [if_pos hstop] at h
        exact ih _ _ t ms cs h
      · rw [if_neg hstop] at h
        have h2 := h
        injection h2 with h3
        injection h3 with ht hms hcs
        exact ⟨msgs, by rw [← hms, ← ht]⟩

/-- C1: for `max_iterations = N ≥ 1` and a Model Client that always
responds `tool_use`, the loop performs exactly `N` tool-use turns — each a
tools-enabled model call followed by dispatching, appending one assistant
and one tool-result message (so the final history grew by `2·N` messages) —
exits `exhausted`, and the run reduces to `run_agent_exhausted`, which by
definition issues exactly one further model call with tools disabled.  The
run terminates: `agent_loop`/`run_agent` are total functions of the
iteration budget. -/
theorem c1_loop_bound (jp : String → Option Json) (model : ModelOracle)
    (oc : ToolOracles) (poster_token : String) (prompt : String)
    (history : List Message) (N : Nat) (_hN : 1 ≤ N)
    (halways : ∀ msgs, ∃ r, model true msgs = Except.ok r ∧ r.stop_reason = "tool_use") :
    ∃ ms cs,
      agent_loop model oc poster_token N
          (clean_orphaned_messages history ++ [⟨"user", Content.str prompt⟩]) [] =
        Except.ok (LoopExit.exhausted ms cs) ∧
      ms.length =
        (clean_orphaned_messages history ++ [Message.mk "user" (Content.str prompt)]).length + 2 * N ∧
      run_agent jp model oc poster_token prompt history N =
        Except.ok (run_agent_exhausted jp model ms cs) := by
  obtain ⟨ms, cs, heq, hlen⟩ := agent_loop_always_toolUse model oc poster_token halways N
    (clean_orphaned_messages history ++ [⟨"user", Content.str prompt⟩]) []
  refine ⟨ms, cs, heq, hlen, ?_⟩
  simp only [run_agent]
  rw [heq]

/-- A Model Client that always requests tools (with no tool blocks to run)
and fails when tools are disabled. -/
def c1model : ModelOracle :=
  fun tools_enabled _ =>
    if tools_enabled then Except.ok (ModelResponse.mk "tool_use" []) else Except.error "disabled"

/-- Tool backends that always succeed trivially. -/
def c1tools : ToolOracles :=
  ⟨fun _ _ => Except.ok Json.null, fun _ => Except.ok none, id⟩

/-- Witness for `c1_loop_bound` at `N = 1` on an empty history. -/
theorem c1_witness :
    ∃ ms cs,
      agent_loop c1model c1tools "tok" 1
          (clean_orphaned_messages [] ++ [⟨"user", Content.str "hi"⟩]) [] =
        Except.ok (LoopExit.exhausted ms cs) ∧
      ms.length =
        (clean_orphaned_messages [] ++ [Message.mk "user" (Content.str "hi")]).length + 2 * 1 ∧
      run_agent (fun _ => none) c1model c1tools "tok" "hi" [] 1 =
        Except.ok (run_agent_exhausted (fun _ => none) c1model ms cs) :=
  c1_loop_bound (fun _ => none) c1model c1tools "tok" "hi" [] 1 (by decide)
    (fun _ => ⟨ModelResponse.mk "tool_use" [], rfl, rfl⟩)

/-- C8: atomicity on model failure.  If a Model Client call in the primary
loop fails, `run_agent` propagates the error and the `/agent` handler
leaves the stored conversation exactly as it was; and whenever the run does
succeed, the store is replaced by the run's returned history, which is
always of the form `_trim_history(...)` — a repaired, trimmed history
produced after a terminal state. -/
theorem c8_atomic_on_model_failure (jp : String → Option Json) (model : ModelOracle)
    (oc : ToolOracles) (poster_token : String) (stored : List Message)
    (prompt : String) (N : Nat) :
    (∀ e, agent_loop model oc poster_token N
        (clean_orphaned_messages stored ++ [⟨"user", Content.str prompt⟩]) [] =
          Except.error e →
      run_agent jp model oc poster_token prompt stored N = Except.error e ∧
      agent_command jp model oc poster_token stored prompt N = (stored, Except.error e))
    ∧ (∀ text hist cs,
        run_agent jp model oc poster_token prompt stored N = Except.ok (text, hist, cs) →
      agent_command jp model oc poster_token stored prompt N = (hist, Except.ok text) ∧
      ∃ ms, hist = trim_history jp ms) := by
  constructor
  · intro e herr
    have hrun : run_agent jp model oc poster_token prompt stored N = Except.error e := by
      simp only [run_agent]
      rw [herr]
    refine ⟨hrun, ?_⟩
    simp only [agent_command]
    rw [hrun]
  · intro text hist cs hok
    refine ⟨?_, ?_⟩
    · simp only [agent_command]
      rw [hok]
    · simp only [run_agent] at hok
      rcases hal : agent_loop model oc poster_token N
          (clean_orphaned_messages stored ++ [⟨"user", Content.str prompt⟩]) [] with e | le
      · rw [hal] at hok
        exact Except.noConfusion hok
      · rw [hal] at hok
        cases le with
        | done ft ms cs2 =>
          dsimp only at hok
          injection hok with h1
          injection h1 with h2 h3
          injection h3 with h4 h5
          exact ⟨ms, h4.symm⟩
        | exhausted ms cs2 =>
          dsimp only at hok
          injection hok with h1
          simp only [run_agent_exhausted] at h1
          rcases hm : model false (ms ++ [exhausted_user_message]) with e2 | resp
          · rw [hm] at h1
            injection h1 with h2 h3
            injection h3 with h4 h5
            exact ⟨ms ++ [exhausted_user_message], h4.symm⟩
          · rw [hm] at h1
            dsimp only at h1
            by_cases hsum : concat_text_blocks resp.content == ""
            · rw [if_pos hsum] at h1
              injection h1 with h2 h3
              injection h3 with h4 h5
              exact ⟨ms ++ [exhausted_user_message], h4.symm⟩
            · rw [if_neg hsum] at h1
              injection h1 with h2 h3
              injection h3 with h4 h5
              exact ⟨ms ++ [exhausted_user_message] ++
                [⟨"assistant", Content.str (concat_text_blocks resp.content)⟩], h4.symm⟩

/-- A Model Client that always raises. -/
def c8model : ModelOracle := fun _ _ => Except.error "boom"

/-- A stored one-message history for the `c8` witness. -/
def c8stored : List Message := [⟨"user", Content.str "old"⟩]

/-- Witness for `c8_atomic_on_model_failure`: a first-call failure leaves
the stored history untouched and surfaces the error. -/
theorem c8_witness :
    run_agent (fun _ => none) c8model c1tools "tok" "q" c8stored 3 =
      Except.error "boom" ∧
    agent_command (fun _ => none) c8model c1tools "tok" c8stored "q" 3 =
      (c8stored, Except.error "boom") :=
  (c8_atomic_on_model_failure (fun _ => none) c8model c1tools "tok" c8stored "q" 3).1
    "boom" rfl

/-- C9: when the iteration limit is exhausted (the model always answers
`tool_use`) and the tools-disabled summarization call itself always fails,
the run still succeeds and returns the fixed fallback text rather than
propagating the failure. -/
theorem c9_exhaustion_fallback (jp : String → Option Json) (model : ModelOracle)
    (oc : ToolOracles) (poster_token : String) (prompt : String)
    (history : List Message) (N : Nat)
    (halways : ∀ msgs, ∃ r, model true msgs = Except.ok r ∧ r.stop_reason = "tool_use")
    (hfail : ∀ msgs, ∃ e, model false msgs = Except.error e) :
    ∃ hist cs, run_agent jp model oc poster_token prompt history N =
      Except.ok (MAX_ITERATIONS_FALLBACK, hist, cs) := by
  obtain ⟨ms, cs, heq, _⟩ := agent_loop_always_toolUse model oc poster_token halways N
    (clean_orphaned_messages history ++ [⟨"user", Content.str prompt⟩]) []
  refine ⟨trim_history jp (ms ++ [exhausted_user_message]), cs, ?_⟩
  simp only [run_agent]
  rw [heq]
  dsimp only
  simp only [run_agent_exhausted]
  obtain ⟨e, he⟩ := hfail (ms ++ [exhausted_user_message])
  rw [he]

/-- A Model Client that always requests tools and raises on the
summarization call. -/
def c9model : ModelOracle :=
  fun tools_enabled _ =>
    if tools_enabled then Except.ok (ModelResponse.mk "tool_use" [])
    else Except.error "summary failed"

/-- Witness for `c9_exhaustion_fallback` at `N = 2`. -/
theorem c9_witness :
    ∃ hist cs, run_agent (fun _ => none) c9model c1tools "tok" "q" [] 2 =
      Except.ok (MAX_ITERATIONS_FALLBACK, hist, cs) :=
  c9_exhaustion_fallback (fun _ => none) c9model c1tools "tok" "q" [] 2
    (fun _ => ⟨ModelResponse.mk "tool_use" [], rfl, rfl⟩)
    (fun _ => ⟨"summary failed", rfl⟩)

/-- C10: on the `done` path with an empty concatenation of text blocks, the
run returns the fixed placeholder `"No response generated."` as its result
while the empty assistant message is still appended to the history that
gets trimmed and stored. -/
theorem c10_empty_text_placeholder (jp : String → Option Json) (model : ModelOracle)
    (oc : ToolOracles) (poster_token : String) (prompt : String)
    (history : List Message) (N : Nat) (ms : List Message) (cs : List Artifact)
    (hdone : agent_loop model oc poster_token N
        (clean_orphaned_messages history ++ [⟨"user", Content.str prompt⟩]) [] =
      Except.ok (LoopExit.done "" ms cs)) :
    run_agent jp model oc poster_token prompt history N =
      Except.ok ("No response generated.", trim_history jp ms, cs) ∧
    ∃ pre, ms = pre ++ [⟨"assistant", Content.str ""⟩] := by
  constructor
  · simp only [run_agent]
    rw [hdone]
    rfl
  · exact agent_loop_done_shape model oc poster_token N _ [] "" ms cs hdone

/-- A Model Client that immediately ends with no content blocks. -/
def c10model : ModelOracle := fun _ _ => Except.ok (ModelResponse.mk "end" [])

/-- Witness for `c10_empty_text_placeholder`: an immediate empty `end`
response yields the placeholder, with the empty assistant turn stored. -/
theorem c10_witness :
    run_agent (fun _ => none) c10model c1tools "tok" "q" [] 1 =
      Except.ok ("No response generated.",
        trim_history (fun _ => none)
          [⟨"user", Content.str "q"⟩, ⟨"assistant", Content.str ""⟩], []) ∧
    ∃ pre, ([⟨"user", Content.str "q"⟩, ⟨"assistant", Content.str ""⟩] : List Message) =
      pre ++ [⟨"assistant", Content.str ""⟩] :=
  c10_empty_text_placeholder (fun _ => none) c10model c1tools "tok" "q" [] 1
    [⟨"user", Content.str "q"⟩, ⟨"assistant", Content.str ""⟩] [] rfl
